import Mathlib

/-!
Shallow embedding of the FinanParsley financial-monitoring dashboard core:
the session-gated routing layer (auth provider variants, edge middleware)
and the revenue/expense aggregation layer (monthly bucketing, revenue
summary and percentages, profit/loss merge, month-over-month change,
trend forecast).

Conventions of the embedding:
- Monetary values (JavaScript numbers) are modelled as exact rationals.
- Calendar dates are modelled as a record of year, zero-based month and
  day; comparison of ISO date strings of the form YYYY-MM-DD used by the
  remote queries coincides with lexicographic comparison of these fields.
- Each remote read takes the provider outcome as an explicit
  argument of type Except: an ok value carries the rows the query would
  return before client-side post-processing, an error models a failed
  request or a response carrying an error object (the source throws on
  such a response inside its try block).
- JavaScript field accesses guarded in the source by "|| 0" or by
  optional chaining are modelled as Option fields read with getD.
-/

/-- Calendar date: year, zero-based month (as produced by getMonth), day
of month. -/
structure Date where
  y : Nat
  m : Fin 12
  d : Nat
deriving DecidableEq, Repr

/-- Comparison of dates, matching lexicographic comparison of the ISO
strings YYYY-MM-DD that the supabase gte and lte filters compare. -/
def Date.le (a b : Date) : Bool :=
  a.y < b.y || (a.y = b.y && (a.m.val < b.m.val ||
    (a.m.val = b.m.val && a.d ≤ b.d)))

/-- A gte lower bound and lte upper bound, both optional as in the source
query builders. -/
def inWindow (dateFrom dateTo : Option Date) (d : Date) : Bool :=
  (match dateFrom with | none => true | some lo => Date.le lo d) &&
  (match dateTo with | none => true | some hi => Date.le d hi)

/-- Month labels in fixed calendar order, as produced by
toLocaleString("default", \x7b month: "short" \x7d) and as the keys of the
monthlyTotals record literal. -/
def monthNames : List String :=
  ["Jan", "Feb", "Mar", "Apr", "May", "Jun",
   "Jul", "Aug", "Sep", "Oct", "Nov", "Dec"]

/-- Short label of a month. -/
def monthShort (i : Fin 12) : String := monthNames.getD i.val ""

/-- Expense row as used by the monthly-expense bucketing in the reports
page: the loop reads only the date and amount fields. The amount is
guarded by "|| 0" in the source, hence Option. -/
structure Expense where
  date : Date
  amount : Option Rat
deriving DecidableEq, Repr

/-- One step of the bucketing loop of fetchMonthlyExpenses in the reports
page: if the row's date falls in the target year, add its amount to the
bucket of its month, else leave the buckets unchanged. -/
def addExpense (year : Nat) (t : Fin 12 → Rat) (e : Expense) : Fin 12 → Rat :=
  if e.date.y = year then
    Function.update t e.date.m (t e.date.m + e.amount.getD 0)
  else t

/-- The monthlyTotals record of fetchMonthlyExpenses after the forEach
loop, starting from all-zero buckets. -/
def monthlyTotals (year : Nat) (expenses : List Expense) : Fin 12 → Rat :=
  expenses.foldl (addExpense year) (fun _ => 0)

/-- fetchMonthlyExpenses of the reports page (src/app/dashboard/reports/
page.tsx, lines 127-171): fetches all expenses via fetchExpenses, then
buckets the amounts of the rows whose date falls in the target year into
the 12 months Jan..Dec; a provider error or an empty result yields the
catch branch resp. the early return. The route.ts variant
(fetchMonthlyExpenses in src/app/auth/callback/route.ts, lines 594-641)
obtains the same year restriction through a server-side date-range filter
instead. -/
def fetchMonthlyExpenses (year : Nat) (res : Except String (List Expense)) :
    List (String × Rat) :=
  match res with
  | .error _ => []
  | .ok expenses =>
    if expenses.isEmpty then
      (List.finRange 12).map (fun i => (monthShort i, 0))
    else
      (List.finRange 12).map (fun i => (monthShort i, monthlyTotals year expenses i))

/-- JavaScript String.prototype.startsWith, character by character on the
string data. -/
def strStartsWith (s pre : String) : Bool :=
  go s.data pre.data
where
  go : List Char → List Char → Bool
    | _, [] => true
    | [], _ :: _ => false
    | x :: xs, y :: ys => x = y && go xs ys

/-- A client-side navigation issued through the Next.js router: replace
does not grow browser history, push does. -/
inductive NavAction where
  | replace (target : String)
  | push (target : String)
deriving DecidableEq, Repr

/-- Routing policy of the AuthProvider variant in src/unnamed/part_004
(lines 202-256). The same two-branch conditional appears verbatim in the
initial handleAuthStateChange and in the onAuthStateChange listener: with
a session on the public auth page, replace-navigate to the dashboard
root; with no session on a path under the protected prefix,
replace-navigate to the auth page; otherwise navigate nowhere. -/
def routeOnAuthState (hasSession : Bool) (pathname : String) : Option NavAction :=
  if hasSession && pathname == "/auth" then
    some (NavAction.replace "/dashboard")
  else if !hasSession && strStartsWith pathname "/dashboard" then
    some (NavAction.replace "/auth")
  else
    none

/-- Navigation issued by the initial handleAuthStateChange of the
part_004 AuthProvider for a given session-retrieval outcome: on a
retrieval error the handler returns early without navigating, otherwise
it applies the routing policy to the retrieved session. -/
def handleAuthStateChange (sessionRes : Except String Bool) (pathname : String) :
    Option NavAction :=
  match sessionRes with
  | .error _ => none
  | .ok hasSession => routeOnAuthState hasSession pathname

/-- Navigation issued by the onAuthStateChange listener of the part_004
AuthProvider for the session delivered with the change event. -/
def onAuthStateChangeNav (hasSession : Bool) (pathname : String) : Option NavAction :=
  routeOnAuthState hasSession pathname

/-- Navigation issued by the effect of the AuthProvider variant in
src/components/auth/auth-provider.tsx (lines 31-94): that variant only
copies the session into component state (and manages the auth_success
localStorage flag); neither its initial getSession path nor its
onAuthStateChange listener calls the router, so no navigation is ever
issued, for any session state and any current path. -/
def authProviderTsxNav (_hasSession : Bool) (_pathname : String) : Option NavAction :=
  none

/-- Response produced by the edge middleware: the pass-through
NextResponse.next() or a redirect to a target path. -/
inductive MwResponse where
  | next
  | redirect (target : String)
deriving DecidableEq, Repr

/-- The middleware of src/middleware.ts (lines 34-72, the variant whose
matcher declares both the protected prefix and the public auth path).
The session-retrieval outcome of supabase.auth.getSession is an explicit
argument; the source resolves it exactly once inside a try block whose
catch returns the pass-through response. -/
def middleware (pathname : String) (sessionRes : Except String Bool) : MwResponse :=
  match sessionRes with
  | .error _ => MwResponse.next
  | .ok hasSession =>
    if strStartsWith pathname "/dashboard" then
      if !hasSession then MwResponse.redirect "/auth" else MwResponse.next
    else if pathname == "/auth" && hasSession then
      MwResponse.redirect "/dashboard"
    else
      MwResponse.next

/-- The declared path set of the middleware matcher
["/dashboard/:path*", "/auth"]. -/
def inMatcher (pathname : String) : Prop :=
  strStartsWith pathname "/dashboard" = true ∨ pathname = "/auth"

/-- Lexicographic comparison of strings by code point, the order in which
the default JavaScript Array sort compares the month-label strings (all
labels here are ASCII, where code points and UTF-16 code units agree). -/
def strLeB (a b : String) : Bool :=
  go a.data b.data
where
  go : List Char → List Char → Bool
    | [], _ => true
    | _ :: _, [] => false
    | x :: xs, y :: ys => if x = y then go xs ys else decide (x < y)

/-- Propositional form of strLeB, for use with the sorting library. -/
def strLe (a b : String) : Prop := strLeB a b = true

instance : DecidableRel strLe := fun a b => instDecidableEqBool (strLeB a b) true

/-- Record assignment semantics of the two forEach loops that build
revenueByMonth and expensesByMonth: later assignments to the same key
overwrite earlier ones. -/
def recordOf (items : List (String × Rat)) : String → Option Rat :=
  items.foldl (fun acc it k => if k = it.1 then some it.2 else acc k) (fun _ => none)

/-- First-occurrence deduplication, the semantics of spreading a
JavaScript Set built from a list. -/
def dedupFirst : List String → List String
  | [] => []
  | k :: rest => k :: dedupFirst (rest.filter (fun x => x ≠ k))
termination_by l => l.length
decreasing_by simp only [List.length_cons]; exact Nat.lt_succ_of_le (rest.length_filter_le _)

/-- A row of the profit/loss report. -/
structure ProfitLossRow where
  month : String
  revenue : Rat
  expenses : Rat
  profit : Rat
  profitMargin : Rat
deriving DecidableEq, Repr

/-- An entry of the revenue-by-month input to the profit/loss merge
(month label and totalRevenue field). -/
structure RevenueItem where
  month : String
  totalRevenue : Rat
deriving DecidableEq, Repr

/-- An entry of the expense-by-month input to the profit/loss merge
(month label and total field). -/
structure ExpenseItem where
  month : String
  total : Rat
deriving DecidableEq, Repr

/-- The row built by generateProfitLossData for one month label, reading
each side from its by-month record with 0 substituted for a missing
month. -/
def profitLossRowFor (revenueByMonth expensesByMonth : String → Option Rat)
    (month : String) : ProfitLossRow :=
  let revenue := (revenueByMonth month).getD 0
  let expenses := (expensesByMonth month).getD 0
  let profit := revenue - expenses
  { month := month
    revenue := revenue
    expenses := expenses
    profit := profit
    profitMargin := if revenue > 0 then profit / revenue * 100 else 0 }

/-- generateProfitLossData of the reports page (src/app/dashboard/
reports/page.tsx, lines 61-90): builds a by-month record from each input,
takes the set of month labels present in either record, sorts the labels
with the default JavaScript string sort, and emits one row per label with
0 substituted for the side missing that month, profit = revenue -
expenses and margin = profit / revenue * 100 when revenue is positive
else 0. -/
def generateProfitLossData (revenueData : List RevenueItem)
    (expenseData : List ExpenseItem) : List ProfitLossRow :=
  let revenueByMonth := recordOf (revenueData.map (fun it => (it.month, it.totalRevenue)))
  let expensesByMonth := recordOf (expenseData.map (fun it => (it.month, it.total)))
  let allMonths := List.insertionSort strLe
    (dedupFirst (revenueData.map (·.month) ++ expenseData.map (·.month)))
  allMonths.map (profitLossRowFor revenueByMonth expensesByMonth)

/-- Month-over-month percent change, as computed by
fetchMonthOverMonthRevenue (src/app/auth/callback/route.ts, lines
358-359) and by expenseMonthOverMonthChange (src/app/dashboard/reports/
page.tsx, lines 667-669): (current - previous) / previous * 100 when the
previous value is positive, else 0. -/
def monthOverMonthChange (current previous : Rat) : Rat :=
  if previous > 0 then (current - previous) / previous * 100 else 0

/-- A point of the combined historical series fed to generateForecast:
month label, revenue and expenses (finite numbers produced by the
aggregation folds). -/
structure HistPoint where
  month : String
  revenue : Rat
  expenses : Rat
deriving DecidableEq, Repr

/-- A JavaScript number as the forecast arithmetic can produce it: a
finite value, NaN, or a signed infinity. The data reaching
generateForecast is finite, but its growth division can produce NaN
(0/0) and signed infinities (x/0 for nonzero x), which then flow through
the clamp and the projection. Negative zero is not distinguished: the
only zeros arising here are the 0 accumulator and data values, which are
positive zero. -/
inductive JsNum where
  | num (q : Rat)
  | nan
  | inf
  | neginf
deriving DecidableEq, Repr

/-- JavaScript addition on the modelled values: NaN propagates; opposite
infinities give NaN. -/
def jsAdd : JsNum → JsNum → JsNum
  | .nan, _ => .nan
  | _, .nan => .nan
  | .inf, .neginf => .nan
  | .neginf, .inf => .nan
  | .inf, _ => .inf
  | _, .inf => .inf
  | .neginf, _ => .neginf
  | _, .neginf => .neginf
  | .num a, .num b => .num (a + b)

/-- JavaScript subtraction on the modelled values: NaN propagates;
equal-signed infinities give NaN. -/
def jsSub : JsNum → JsNum → JsNum
  | .nan, _ => .nan
  | _, .nan => .nan
  | .inf, .inf => .nan
  | .neginf, .neginf => .nan
  | .inf, _ => .inf
  | .neginf, _ => .neginf
  | _, .inf => .neginf
  | _, .neginf => .inf
  | .num a, .num b => .num (a - b)

/-- JavaScript multiplication on the modelled values: NaN propagates;
zero times an infinity is NaN. -/
def jsMul : JsNum → JsNum → JsNum
  | .nan, _ => .nan
  | _, .nan => .nan
  | .inf, .inf => .inf
  | .inf, .neginf => .neginf
  | .neginf, .inf => .neginf
  | .neginf, .neginf => .inf
  | .inf, .num b => if b = 0 then .nan else if 0 < b then .inf else .neginf
  | .num a, .inf => if a = 0 then .nan else if 0 < a then .inf else .neginf
  | .neginf, .num b => if b = 0 then .nan else if 0 < b then .neginf else .inf
  | .num a, .neginf => if a = 0 then .nan else if 0 < a then .neginf else .inf
  | .num a, .num b => .num (a * b)

/-- JavaScript division on the modelled values: 0/0 is NaN, x/0 for
nonzero finite x is a signed infinity, finite over infinite is 0, NaN
propagates, infinite over infinite is NaN. -/
def jsDiv : JsNum → JsNum → JsNum
  | .nan, _ => .nan
  | _, .nan => .nan
  | .inf, .inf => .nan
  | .inf, .neginf => .nan
  | .neginf, .inf => .nan
  | .neginf, .neginf => .nan
  | .inf, .num b => if 0 ≤ b then .inf else .neginf
  | .neginf, .num b => if 0 ≤ b then .neginf else .inf
  | .num _, .inf => .num 0
  | .num _, .neginf => .num 0
  | .num a, .num b =>
    if b = 0 then (if a = 0 then .nan else if 0 < a then .inf else .neginf)
    else .num (a / b)

/-- Math.min on the modelled values: NaN propagates; otherwise the
smaller value. -/
def jsMin : JsNum → JsNum → JsNum
  | .nan, _ => .nan
  | _, .nan => .nan
  | .neginf, _ => .neginf
  | _, .neginf => .neginf
  | .inf, b => b
  | a, .inf => a
  | .num a, .num b => .num (min a b)

/-- Math.max on the modelled values: NaN propagates; otherwise the
larger value. -/
def jsMax : JsNum → JsNum → JsNum
  | .nan, _ => .nan
  | _, .nan => .nan
  | .inf, _ => .inf
  | _, .inf => .inf
  | .neginf, b => b
  | a, .neginf => a
  | .num a, .num b => .num (max a b)

/-- Math.pow with the natural exponents 1..6 used by the projection:
exponent 0 gives 1, a NaN base propagates, an infinite base keeps its
sign by parity of the exponent. -/
def jsPow (a : JsNum) (n : Nat) : JsNum :=
  if n = 0 then .num 1
  else match a with
    | .num q => .num (q ^ n)
    | .nan => .nan
    | .inf => .inf
    | .neginf => if n % 2 = 1 then .neginf else .inf

/-- A projected point produced by generateForecast; the numeric fields
carry the JavaScript-number results of the projection arithmetic. -/
structure ForecastPoint where
  month : String
  revenue : JsNum
  expenses : JsNum
  profit : JsNum
  isForecast : Bool
deriving DecidableEq, Repr

/-- The terms of the growth-accumulation loop of generateForecast over
consecutive pairs of the trailing window: (next - prev) / prev for the
selected field, in JavaScript-number arithmetic, so a zero prev gives
NaN when next equals prev and a signed infinity otherwise. -/
def growthTerms (f : HistPoint → Rat) : List HistPoint → List JsNum
  | a :: b :: rest =>
    jsDiv (jsSub (.num (f b)) (.num (f a))) (.num (f a)) :: growthTerms f (b :: rest)
  | _ => []

/-- The += accumulation of the loop, left to right from the 0
initializer. -/
def growthSum (f : HistPoint → Rat) (pts : List HistPoint) : JsNum :=
  (growthTerms f pts).foldl jsAdd (.num 0)

/-- The trailing window slice(-3) of the historical series. -/
def lastThree (hist : List HistPoint) : List HistPoint :=
  hist.drop (hist.length - 3)

/-- Average period-over-period growth of a field over the trailing
window, before clamping: the loop runs only when at least 2 trailing
points are available, otherwise the accumulator keeps its initial 0. -/
def rawGrowth (f : HistPoint → Rat) (hist : List HistPoint) : JsNum :=
  if 2 ≤ (lastThree hist).length then
    jsDiv (growthSum f (lastThree hist))
      (.num (((lastThree hist).length - 1 : Nat) : Rat))
  else .num 0

/-- The clamp Math.max(-0.2, Math.min(0.2, x)) applied to both growth
rates; Math.min and Math.max propagate NaN, so a NaN raw growth passes
through the clamp unchanged. -/
def clampRate (x : JsNum) : JsNum :=
  jsMax (.num (-(1/5))) (jsMin (.num (1/5)) x)

/-- Clamped average revenue growth rate of generateForecast. -/
def revGrowthRate (hist : List HistPoint) : JsNum :=
  clampRate (rawGrowth (fun p => p.revenue) hist)

/-- Clamped average expense growth rate of generateForecast. -/
def expGrowthRate (hist : List HistPoint) : JsNum :=
  clampRate (rawGrowth (fun p => p.expenses) hist)

/-- Month label of the i-th forecast period: the source parses the last
label into a date in the current year and formats lastMonthDate plus i
months, which cycles through the month names. -/
def forecastLabel (lastLabel : String) (i : Nat) : String :=
  monthNames.getD ((monthNames.indexOf lastLabel + i) % 12) ""

/-- generateForecast of the analytics page (src/app/dashboard/analytics/
page.tsx, lines 69-120): from a non-empty historical series, computes the
average growth rate of the trailing 3 points (when at least 2 are
available, else 0), applies the [-20%, +20%] clamp, and projects 6
periods compounding the last known value by (1 + rate)^n, all in
JavaScript-number arithmetic. An empty series yields the empty early
return. -/
def generateForecast (hist : List HistPoint) : List ForecastPoint :=
  if hist.isEmpty then [] else
  let lastMonth := hist.getLastD ⟨"", 0, 0⟩
  let gRev := revGrowthRate hist
  let gExp := expGrowthRate hist
  (List.range 6).map (fun k =>
    let n := k + 1
    let forecastRevenue := jsMul (.num lastMonth.revenue) (jsPow (jsAdd (.num 1) gRev) n)
    let forecastExpenses := jsMul (.num lastMonth.expenses) (jsPow (jsAdd (.num 1) gExp) n)
    { month := forecastLabel lastMonth.month n
      revenue := forecastRevenue
      expenses := forecastExpenses
      profit := jsSub forecastRevenue forecastExpenses
      isForecast := true })

/-- Order row with the columns selected by fetchOrders. payment_status is
read through optional chaining, shipping_cost through "|| 0". -/
structure OrderRow where
  created_at : Date
  payment_status : Option String
  total_amount : Rat
  shipping_cost : Option Rat
deriving DecidableEq, Repr

/-- Market row with the columns used by the market revenue fold. -/
structure MarketRow where
  end_date : Date
  final_incoming : Option Rat
deriving DecidableEq, Repr

/-- Course row with the columns used by the course revenue fold. -/
structure CourseRow where
  date : Date
  total_amount : Option Rat
deriving DecidableEq, Repr

/-- ASCII uppercasing, the effect of JavaScript toUpperCase on the ASCII
payment-status strings. -/
def toUpperCaseAscii (s : String) : String := ⟨s.data.map Char.toUpper⟩

/-- The paidStatuses list of fetchOrders. -/
def paidStatuses : List String :=
  ["PAID", "COMPLETED", "SETTLED", "PROCESSED", "APPROVED"]

/-- The paid filter of fetchOrders: payment_status, uppercased, must be
one of the paid statuses; a missing status (undefined after optional
chaining) never matches. -/
def isPaidStatus : Option String → Bool
  | none => false
  | some s => paidStatuses.contains (toUpperCaseAscii s)

/-- fetchOrders (src/app/auth/callback/route.ts, lines 114-149): the
query filters created_at by the optional date window server-side; the
client then keeps only the rows whose payment status indicates payment
was received. A provider error yields the catch branch. -/
def fetchOrders (dateFrom dateTo : Option Date)
    (res : Except String (List OrderRow)) : List OrderRow :=
  match res with
  | .error _ => []
  | .ok data =>
    (data.filter (fun o => inWindow dateFrom dateTo o.created_at)).filter
      (fun o => isPaidStatus o.payment_status)

/-- fetchMarkets (route.ts, lines 152-176): end_date window filter, no
client-side filter, error to empty list. -/
def fetchMarkets (dateFrom dateTo : Option Date)
    (res : Except String (List MarketRow)) : List MarketRow :=
  match res with
  | .error _ => []
  | .ok data => data.filter (fun mkt => inWindow dateFrom dateTo mkt.end_date)

/-- fetchCourses (route.ts, lines 179-203): date window filter, no
client-side filter, error to empty list. -/
def fetchCourses (dateFrom dateTo : Option Date)
    (res : Except String (List CourseRow)) : List CourseRow :=
  match res with
  | .error _ => []
  | .ok data => data.filter (fun c => inWindow dateFrom dateTo c.date)

/-- The order revenue reduce of fetchRevenueSummary:
sum + (total_amount + (shipping_cost || 0)). -/
def orderRevenueOf (orders : List OrderRow) : Rat :=
  orders.foldl (fun sum o => sum + (o.total_amount + o.shipping_cost.getD 0)) 0

/-- The market revenue reduce of fetchRevenueSummary:
sum + (final_incoming || 0). -/
def marketRevenueOf (markets : List MarketRow) : Rat :=
  markets.foldl (fun sum mkt => sum + mkt.final_incoming.getD 0) 0

/-- The course revenue reduce of fetchRevenueSummary:
sum + (total_amount || 0). -/
def courseRevenueOf (courses : List CourseRow) : Rat :=
  courses.foldl (fun sum c => sum + c.total_amount.getD 0) 0

/-- The summary record returned by fetchRevenueSummary. -/
structure RevenueSummary where
  totalRevenue : Rat
  orderRevenue : Rat
  marketRevenue : Rat
  courseRevenue : Rat
  orderCount : Nat
  marketCount : Nat
  courseCount : Nat
deriving DecidableEq, Repr

/-- fetchRevenueSummary (route.ts, lines 206-240): joins the three reads
and reduces each into a revenue sum and a row count; totalRevenue is
their sum. Since the three reads normalize their own errors, the catch
branch (an all-zero record) is unreachable in this model. -/
def fetchRevenueSummary (dateFrom dateTo : Option Date)
    (ordersRes : Except String (List OrderRow))
    (marketsRes : Except String (List MarketRow))
    (coursesRes : Except String (List CourseRow)) : RevenueSummary :=
  let orders := fetchOrders dateFrom dateTo ordersRes
  let markets := fetchMarkets dateFrom dateTo marketsRes
  let courses := fetchCourses dateFrom dateTo coursesRes
  let orderRevenue := orderRevenueOf orders
  let marketRevenue := marketRevenueOf markets
  let courseRevenue := courseRevenueOf courses
  { totalRevenue := orderRevenue + marketRevenue + courseRevenue
    orderRevenue := orderRevenue
    marketRevenue := marketRevenue
    courseRevenue := courseRevenue
    orderCount := orders.length
    marketCount := markets.length
    courseCount := courses.length }

/-- An entry of the revenue-by-source breakdown. -/
structure RevenueBySource where
  source : String
  amount : Rat
  percentage : Rat
deriving DecidableEq, Repr

/-- The sources list built by fetchRevenueBySource (route.ts, lines
300-329) from a summary: the denominator is summary.totalRevenue with 1
substituted when it is 0 (the "|| 1" guard against division by zero). -/
def revenueBySourceOf (summary : RevenueSummary) : List RevenueBySource :=
  let totalRevenue := if summary.totalRevenue = 0 then 1 else summary.totalRevenue
  [{ source := "Orders"
     amount := summary.orderRevenue
     percentage := summary.orderRevenue / totalRevenue * 100 },
   { source := "Markets"
     amount := summary.marketRevenue
     percentage := summary.marketRevenue / totalRevenue * 100 },
   { source := "Courses"
     amount := summary.courseRevenue
     percentage := summary.courseRevenue / totalRevenue * 100 }]

/-- fetchRevenueBySource composes the summary with the percentage
breakdown; its own catch branch returns the empty list. -/
def fetchRevenueBySource (dateFrom dateTo : Option Date)
    (ordersRes : Except String (List OrderRow))
    (marketsRes : Except String (List MarketRow))
    (coursesRes : Except String (List CourseRow)) : List RevenueBySource :=
  revenueBySourceOf (fetchRevenueSummary dateFrom dateTo ordersRes marketsRes coursesRes)

/-- Profile row as selected by fetchProfile. -/
structure Profile where
  id : String
  email : String
  full_name : Option String
deriving DecidableEq, Repr

/-- fetchProfile (src/app/auth/callback/route.ts, lines 479-489): the
single-row profiles read; on a provider error the catch block logs and
rethrows, so the error propagates to the caller instead of being
normalized to a default value. -/
def fetchProfile (res : Except String Profile) : Except String Profile :=
  match res with
  | .error e => Except.error e
  | .ok data => Except.ok data

/-- Category row as selected by fetchCategories. -/
structure Category where
  id : Nat
  name : String
deriving DecidableEq, Repr

/-- fetchCategories (route.ts, lines 491-502): categories read, error
normalized to the empty list. -/
def fetchCategories (res : Except String (List Category)) : List Category :=
  match res with
  | .error _ => []
  | .ok data => data

/-- Expense row as selected by fetchExpenses, with the joined category
record. -/
structure ExpenseJoinRow where
  date : Date
  amount : Option Rat
  categories : Option Category
deriving DecidableEq, Repr

/-- Expense row after fetchExpenses flattens the joined category name. -/
structure ExpenseOut where
  date : Date
  amount : Option Rat
  category_name : Option String
deriving DecidableEq, Repr

/-- fetchExpenses (route.ts, lines 504-538): date window filter
server-side, then a map flattening categories?.name into category_name;
error normalized to the empty list. -/
def fetchExpenses (dateFrom dateTo : Option Date)
    (res : Except String (List ExpenseJoinRow)) : List ExpenseOut :=
  match res with
  | .error _ => []
  | .ok data =>
    (data.filter (fun e => inWindow dateFrom dateTo e.date)).map
      (fun e => { date := e.date, amount := e.amount,
                  category_name := e.categories.map (fun c => c.name) })

/-- fetchExpensesByYear (route.ts, lines 540-550): fetchExpenses over the
first-of-January to end-of-December window of the year. -/
def fetchExpensesByYear (year : Nat)
    (res : Except String (List ExpenseJoinRow)) : List ExpenseOut :=
  fetchExpenses (some ⟨year, ⟨0, by decide⟩, 1⟩) (some ⟨year, ⟨11, by decide⟩, 31⟩) res

/-- fetchTotalExpenses (route.ts, lines 643-668): date window filter,
then a reduce of sum + (amount || 0); error normalized to 0 (the empty
result also returns 0, which the reduce gives as well). -/
def fetchTotalExpenses (dateFrom dateTo : Option Date)
    (res : Except String (List ExpenseJoinRow)) : Rat :=
  match res with
  | .error _ => 0
  | .ok data =>
    ((data.filter (fun e => inWindow dateFrom dateTo e.date)).map
      (fun e => e.amount.getD 0)).foldl (· + ·) 0

/-- Expense row with the columns selected by fetchExpensesByCategory. -/
structure ExpenseCatRow where
  category_id : Nat
  categories : Option Category
  amount : Option Rat
deriving DecidableEq, Repr

/-- A group of the by-category totals. -/
structure CategoryTotal where
  category_id : Nat
  category_name : String
  total : Rat
deriving DecidableEq, Repr

/-- One step of the grouping loop of fetchExpensesByCategory: add the
amount to the existing group of the row's category, or start a new group
named categories?.name || "Unknown". -/
def addCategoryTotal (acc : List CategoryTotal) (e : ExpenseCatRow) : List CategoryTotal :=
  if acc.any (fun g => g.category_id = e.category_id) then
    acc.map (fun g =>
      if g.category_id = e.category_id then
        { g with total := g.total + e.amount.getD 0 }
      else g)
  else
    acc ++ [{ category_id := e.category_id
              category_name := (e.categories.map (fun c => c.name)).getD "Unknown"
              total := e.amount.getD 0 }]

/-- fetchExpensesByCategory (route.ts, lines 552-592): groups all expense
rows by category_id summing amounts; Object.values over the
categoryTotals record returns the groups in ascending category_id order,
since integer-keyed record properties enumerate in ascending numeric
order; error (and the explicit empty-data check) normalized to the empty
list. -/
def fetchExpensesByCategory (res : Except String (List ExpenseCatRow)) :
    List CategoryTotal :=
  match res with
  | .error _ => []
  | .ok data =>
    List.insertionSort (fun g h => g.category_id ≤ h.category_id)
      (data.foldl addCategoryTotal [])

/-- fetchMonthlyExpenses of the supabase library module (route.ts, lines
594-641): the query restricts date to the year window server-side, then
every returned row is bucketed into the month of its date with no further
year check; error normalized to the empty list. -/
def fetchMonthlyExpensesLib (year : Nat) (res : Except String (List Expense)) :
    List (String × Rat) :=
  match res with
  | .error _ => []
  | .ok table =>
    let monthFirst : Date := ⟨year, ⟨0, by decide⟩, 1⟩
    let monthLast : Date := ⟨year, ⟨11, by decide⟩, 31⟩
    let data := table.filter (fun e => inWindow (some monthFirst) (some monthLast) e.date)
    if data.isEmpty then
      (List.finRange 12).map (fun i => (monthShort i, 0))
    else
      let totals := data.foldl
        (fun t e => Function.update t e.date.m (t e.date.m + e.amount.getD 0))
        (fun _ => (0 : Rat))
      (List.finRange 12).map (fun i => (monthShort i, totals i))

/-! Claim theorems. -/

/-- C7: for every pair of current-period and previous-period values, the
month-over-month percent change equals (current - previous) / previous *
100 when the previous value is positive, and equals exactly 0 when the
previous value is 0, regardless of the current value. -/
theorem monthOverMonthChange_spec (current previous : Rat) :
    (0 < previous →
      monthOverMonthChange current previous = (current - previous) / previous * 100) ∧
    (previous = 0 → monthOverMonthChange current previous = 0) := by
  refine ⟨fun h => ?_, fun h => ?_⟩
  · simp [monthOverMonthChange, h]
  · simp [monthOverMonthChange, h]

/-- Witness for C7: the month-over-month change of 150 over a previous
value of 100 is 50 percent, and over a previous value of 0 it is 0. -/
theorem monthOverMonthChange_spec_witness :
    monthOverMonthChange 150 100 = 50 ∧ monthOverMonthChange 77 0 = 0 := by
  constructor
  · rw [(monthOverMonthChange_spec 150 100).1 (by norm_num)]; norm_num
  · exact (monthOverMonthChange_spec 77 0).2 rfl

/-- C9: for every request path, if session resolution raises, the
middleware catches the exception after its single resolution attempt and
returns the pass-through response unchanged: never a redirect and (as the
response type of the embedded middleware shows) never an error
response. -/
theorem middleware_fail_open (pathname : String) (e : String) :
    middleware pathname (Except.error e) = MwResponse.next := rfl

/-- C3: for every request in the middleware's declared path set, the
result follows the decision table: protected prefix without session
redirects to the auth path; protected prefix with session passes through;
the public auth path with session redirects to the protected root; the
public auth path without session passes through. -/
theorem middleware_decision_table (pathname : String) (hasSession : Bool)
    (h : inMatcher pathname) :
    (strStartsWith pathname "/dashboard" = true → hasSession = false →
      middleware pathname (Except.ok hasSession) = MwResponse.redirect "/auth") ∧
    (strStartsWith pathname "/dashboard" = true → hasSession = true →
      middleware pathname (Except.ok hasSession) = MwResponse.next) ∧
    (pathname = "/auth" → hasSession = true →
      middleware pathname (Except.ok hasSession) = MwResponse.redirect "/dashboard") ∧
    (pathname = "/auth" → hasSession = false →
      middleware pathname (Except.ok hasSession) = MwResponse.next) := by
  refine ⟨fun hd hs => ?_, fun hd hs => ?_, fun hp hs => ?_, fun hp hs => ?_⟩
  · subst hs; simp [middleware, hd]
  · subst hs; simp [middleware, hd]
  · subst hp; subst hs; decide
  · subst hp; subst hs; decide

/-- Witness for C3: the table evaluated on the concrete requests
/dashboard/reports without and with a session, and /auth with and without
a session. -/
theorem middleware_decision_table_witness :
    middleware "/dashboard/reports" (Except.ok false) = MwResponse.redirect "/auth" ∧
    middleware "/dashboard/reports" (Except.ok true) = MwResponse.next ∧
    middleware "/auth" (Except.ok true) = MwResponse.redirect "/dashboard" ∧
    middleware "/auth" (Except.ok false) = MwResponse.next := by
  have hd := middleware_decision_table "/dashboard/reports" false (Or.inl (by decide))
  have hd2 := middleware_decision_table "/dashboard/reports" true (Or.inl (by decide))
  have ha := middleware_decision_table "/auth" true (Or.inr rfl)
  have ha2 := middleware_decision_table "/auth" false (Or.inr rfl)
  exact ⟨hd.1 (by decide) rfl, hd2.2.1 (by decide) rfl,
    ha.2.2.1 rfl rfl, ha2.2.2.2 rfl rfl⟩

/-- C2 counterexample: the AuthProvider variant in
src/components/auth/auth-provider.tsx, one of the components the claim is
about, issues no navigation at all: with a session present and the
current path equal to the public auth page it does not issue the
replace-navigation to the protected dashboard root that the claim
requires. -/
theorem authProviderTsx_no_navigation :
    authProviderTsxNav true "/auth" ≠ some (NavAction.replace "/dashboard") := by
  simp [authProviderTsxNav]

/-- C2 amended: the routing-variant AuthProvider (src/unnamed/part_004)
applies the policy both at initial load (handleAuthStateChange, when
session retrieval succeeds) and at every change event: with a session on
the public auth page exactly one replace-navigation to the protected
root; with no session on a path under the protected prefix exactly one
replace-navigation to the auth page; otherwise no navigation. The
navigations are replace actions, which do not grow browser history. The
variant in src/components/auth/auth-provider.tsx issues no navigation. -/
theorem routeOnAuthState_policy (hasSession : Bool) (pathname : String) :
    (hasSession = true → pathname = "/auth" →
      routeOnAuthState hasSession pathname = some (NavAction.replace "/dashboard")) ∧
    (hasSession = false → strStartsWith pathname "/dashboard" = true →
      routeOnAuthState hasSession pathname = some (NavAction.replace "/auth")) ∧
    (¬(hasSession = true ∧ pathname = "/auth") →
      ¬(hasSession = false ∧ strStartsWith pathname "/dashboard" = true) →
      routeOnAuthState hasSession pathname = none) ∧
    (handleAuthStateChange (Except.ok hasSession) pathname =
      routeOnAuthState hasSession pathname) ∧
    (onAuthStateChangeNav hasSession pathname = routeOnAuthState hasSession pathname) ∧
    (∀ e, handleAuthStateChange (Except.error e) pathname = none) ∧
    (authProviderTsxNav hasSession pathname = none) := by
  refine ⟨fun hs hp => ?_, fun hs hp => ?_, fun h1 h2 => ?_, rfl, rfl, fun e => rfl, rfl⟩
  · subst hs; subst hp; simp [routeOnAuthState]
  · subst hs; simp [routeOnAuthState, hp]
  · rcases Bool.eq_false_or_eq_true hasSession with hs | hs
    · subst hs
      have hp : pathname ≠ "/auth" := fun hp => h1 ⟨rfl, hp⟩
      simp [routeOnAuthState, hp]
    · subst hs
      have hp : strStartsWith pathname "/dashboard" = false := by
        cases hst : strStartsWith pathname "/dashboard"
        · rfl
        · exact absurd ⟨rfl, hst⟩ h2
      simp [routeOnAuthState, hp]

/-- Witness for C2 (amended): the policy evaluated at a session on /auth,
no session on /dashboard/x, and no session on the root path. -/
theorem routeOnAuthState_policy_witness :
    routeOnAuthState true "/auth" = some (NavAction.replace "/dashboard") ∧
    routeOnAuthState false "/dashboard/x" = some (NavAction.replace "/auth") ∧
    routeOnAuthState false "/" = none := by
  refine ⟨(routeOnAuthState_policy true "/auth").1 rfl rfl,
    (routeOnAuthState_policy false "/dashboard/x").2.1 rfl (by decide),
    (routeOnAuthState_policy false "/").2.2.1 (by simp) ?_⟩
  intro hc
  exact absurd hc.2 (by decide)

/-- Adding a value into one bucket raises the total over all buckets by
that value. -/
theorem sum_update_add (t : Fin 12 → Rat) (j : Fin 12) (a : Rat) :
    (∑ i, Function.update t j (t j + a) i) = (∑ i, t i) + a := by
  rw [Finset.sum_update_of_mem (Finset.mem_univ j)]
  rw [← Finset.add_sum_erase _ t (Finset.mem_univ j)]
  rw [Finset.sdiff_singleton_eq_erase]
  ring

/-- The total over all buckets after the bucketing loop is the initial
total plus the amounts of the in-year rows. -/
theorem foldl_addExpense_sum (year : Nat) :
    ∀ (rows : List Expense) (t : Fin 12 → Rat),
      (∑ i, rows.foldl (addExpense year) t i) =
        (∑ i, t i) +
          ((rows.filter (fun e => e.date.y == year)).map
            (fun e => e.amount.getD 0)).sum := by
  intro rows
  induction rows with
  | nil => intro t; simp
  | cons e rest ih =>
    intro t
    simp only [List.foldl_cons, List.filter_cons]
    by_cases h : e.date.y = year
    · have hb : (e.date.y == year) = true := by simpa using h
      rw [hb]
      simp only [if_pos, List.map_cons, List.sum_cons]
      rw [ih]
      simp only [addExpense, if_pos h]
      rw [sum_update_add]
      ring
    · have hb : (e.date.y == year) = false := by simpa using h
      rw [hb]
      simp only [Bool.false_eq_true, if_false]
      rw [ih]
      simp only [addExpense, if_neg h]

/-- The bucketing loop ignores rows dated outside the target year: it
computes the same buckets on the year-filtered rows. -/
theorem foldl_addExpense_filter (year : Nat) :
    ∀ (rows : List Expense) (t : Fin 12 → Rat),
      rows.foldl (addExpense year) t =
        (rows.filter (fun e => e.date.y == year)).foldl (addExpense year) t := by
  intro rows
  induction rows with
  | nil => intro t; rfl
  | cons e rest ih =>
    intro t
    simp only [List.foldl_cons, List.filter_cons]
    by_cases h : e.date.y = year
    · have hb : (e.date.y == year) = true := by simpa using h
      rw [hb]
      simp only [if_pos, List.foldl_cons]
      exact ih _
    · have hb : (e.date.y == year) = false := by simpa using h
      rw [hb]
      simp only [Bool.false_eq_true, if_false]
      rw [show addExpense year t e = t from by simp [addExpense, h]]
      exact ih t

/-- The label column of the bucket output is the fixed 12-month
calendar. -/
theorem map_fst_buckets (g : Fin 12 → Rat) :
    ((List.finRange 12).map (fun i => (monthShort i, g i))).map Prod.fst = monthNames := by
  rw [List.map_map]
  show (List.finRange 12).map (fun i => monthShort i) = monthNames
  decide

/-- C1: for every input collection of expense rows and every target year,
fetchMonthlyExpenses returns exactly 12 buckets labeled Jan..Dec in fixed
calendar order (all zero on the empty input), the sum of the 12 bucket
totals equals the sum of the amounts of the rows dated in the target
year, and rows dated outside the target year contribute to no bucket (the
output equals the output on the year-filtered rows). -/
theorem fetchMonthlyExpenses_spec (year : Nat) (rows : List Expense) :
    (fetchMonthlyExpenses year (Except.ok rows)).map Prod.fst = monthNames ∧
    (fetchMonthlyExpenses year (Except.ok rows)).length = 12 ∧
    ((fetchMonthlyExpenses year (Except.ok rows)).map Prod.snd).sum =
      ((rows.filter (fun e => e.date.y == year)).map (fun e => e.amount.getD 0)).sum ∧
    fetchMonthlyExpenses year (Except.ok rows) =
      fetchMonthlyExpenses year (Except.ok (rows.filter (fun e => e.date.y == year))) ∧
    fetchMonthlyExpenses year (Except.ok ([] : List Expense)) =
      monthNames.map (fun n => (n, 0)) := by
  have hnil : fetchMonthlyExpenses year (Except.ok ([] : List Expense)) =
      (List.finRange 12).map (fun i => (monthShort i, 0)) := rfl
  refine ⟨?_, ?_, ?_, ?_, by rw [hnil]; decide⟩
  · cases hE : rows.isEmpty
    · simp only [fetchMonthlyExpenses, hE, Bool.false_eq_true, if_false]
      exact map_fst_buckets _
    · simp only [fetchMonthlyExpenses, hE, if_true]
      exact map_fst_buckets _
  · cases hE : rows.isEmpty <;>
      simp [fetchMonthlyExpenses, hE]
  · cases hE : rows.isEmpty
    · simp only [fetchMonthlyExpenses, hE, Bool.false_eq_true, if_false]
      rw [List.map_map]
      show ((List.finRange 12).map (fun i => monthlyTotals year rows i)).sum = _
      rw [← Fin.sum_univ_def]
      rw [monthlyTotals, foldl_addExpense_sum year rows]
      simp
    · rw [List.isEmpty_iff] at hE
      subst hE
      rw [hnil]
      simp only [List.filter_nil, List.map_nil, List.sum_nil]
      apply List.sum_eq_zero
      intro x hx
      rw [List.map_map] at hx
      obtain ⟨i, _, rfl⟩ := List.mem_map.mp hx
      rfl
  · cases hE : rows.isEmpty
    · cases hF : (rows.filter (fun e => e.date.y == year)).isEmpty
      · have hFF : (rows.filter (fun e => e.date.y == year)).filter
            (fun e => e.date.y == year) = rows.filter (fun e => e.date.y == year) :=
          List.filter_eq_self.mpr (fun a ha => (List.mem_filter.mp ha).2)
        have hMT : monthlyTotals year rows =
            monthlyTotals year (rows.filter (fun e => e.date.y == year)) := by
          rw [monthlyTotals, monthlyTotals, foldl_addExpense_filter year rows,
            foldl_addExpense_filter year (rows.filter (fun e => e.date.y == year)), hFF]
        simp only [fetchMonthlyExpenses, hE, hF, Bool.false_eq_true, if_false, hMT]
      · rw [List.isEmpty_iff] at hF
        have hMT : monthlyTotals year rows = fun _ => (0 : Rat) := by
          rw [monthlyTotals, foldl_addExpense_filter year rows, hF]
          rfl
        simp only [fetchMonthlyExpenses, hE, hF, Bool.false_eq_true, if_false,
          List.isEmpty_nil, if_true, hMT]
    · rw [List.isEmpty_iff] at hE
      subst hE
      rfl

/-- The clamp applied to any non-NaN value yields a finite rate within
[-20%, +20%]; a NaN argument passes through Math.min and Math.max
unchanged. -/
theorem clampRate_ne_nan (x : JsNum) (hx : x ≠ JsNum.nan) :
    ∃ q : Rat, clampRate x = JsNum.num q ∧ -(1/5) ≤ q ∧ q ≤ 1/5 := by
  cases x with
  | nan => exact absurd rfl hx
  | num q =>
    exact ⟨max (-(1/5)) (min (1/5) q), rfl, le_max_left _ _,
      max_le (by norm_num) (min_le_left _ _)⟩
  | inf =>
    exact ⟨max (-(1/5)) (1/5), rfl, le_max_left _ _, max_le (by norm_num) le_rfl⟩
  | neginf =>
    exact ⟨-(1/5), rfl, le_rfl, by norm_num⟩

/-- Every growth term of a trailing window whose field values are all
nonzero is a finite number. -/
theorem growthTerms_num (f : HistPoint → Rat) :
    ∀ pts : List HistPoint, (∀ p ∈ pts, f p ≠ 0) →
      ∀ t ∈ growthTerms f pts, ∃ q : Rat, t = JsNum.num q := by
  intro pts
  induction pts with
  | nil =>
    intro _ t ht
    simp [growthTerms] at ht
  | cons a rest ih =>
    intro hz t ht
    cases rest with
    | nil => simp [growthTerms] at ht
    | cons b rest2 =>
      rw [growthTerms] at ht
      rcases List.mem_cons.mp ht with rfl | ht2
      · have ha : f a ≠ 0 := hz a (by simp)
        exact ⟨(f b - f a) / f a, by simp [jsSub, jsDiv, ha]⟩
      · exact ih (fun p hp => hz p (List.mem_cons_of_mem a hp)) t ht2

/-- Accumulating finite terms from a finite initial value stays
finite. -/
theorem foldl_jsAdd_num :
    ∀ ts : List JsNum, (∀ t ∈ ts, ∃ q : Rat, t = JsNum.num q) →
      ∀ q0 : Rat, ∃ q : Rat, ts.foldl jsAdd (JsNum.num q0) = JsNum.num q := by
  intro ts
  induction ts with
  | nil => intro _ q0; exact ⟨q0, rfl⟩
  | cons t ts ih =>
    intro h q0
    obtain ⟨qt, rfl⟩ := h t (by simp)
    rw [List.foldl_cons]
    exact ih (fun u hu => h u (List.mem_cons_of_mem _ hu)) (q0 + qt)

/-- C5 amended: for every non-empty historical series, the growth rate is
the clamp of the raw trailing growth, so it is a finite value in
[-20%, +20%] whenever the raw growth is not NaN -- in particular whenever
all trailing field values are nonzero; when a zero-valued trailing point
makes the raw growth NaN, Math.min and Math.max propagate the NaN and the
rate escapes the clamp. The forecast has exactly 6 periods compounding
the last known value by (1 + rate)^n in JavaScript-number arithmetic, and
with fewer than 2 trailing points the rate is 0 and all 6 projected
values equal the last known values unchanged. -/
theorem generateForecast_spec (hist : List HistPoint) (hne : hist ≠ []) :
    (rawGrowth (fun p => p.revenue) hist ≠ JsNum.nan →
      ∃ q : Rat, revGrowthRate hist = JsNum.num q ∧ -(1/5) ≤ q ∧ q ≤ 1/5) ∧
    (rawGrowth (fun p => p.expenses) hist ≠ JsNum.nan →
      ∃ q : Rat, expGrowthRate hist = JsNum.num q ∧ -(1/5) ≤ q ∧ q ≤ 1/5) ∧
    ((∀ p ∈ lastThree hist, p.revenue ≠ 0) →
      rawGrowth (fun p => p.revenue) hist ≠ JsNum.nan) ∧
    (generateForecast hist).length = 6 ∧
    (∀ k, k < 6 →
      (generateForecast hist)[k]?.map (fun p => p.revenue) =
        some (jsMul (JsNum.num (hist.getLastD ⟨"", 0, 0⟩).revenue)
          (jsPow (jsAdd (JsNum.num 1) (revGrowthRate hist)) (k + 1))) ∧
      (generateForecast hist)[k]?.map (fun p => p.expenses) =
        some (jsMul (JsNum.num (hist.getLastD ⟨"", 0, 0⟩).expenses)
          (jsPow (jsAdd (JsNum.num 1) (expGrowthRate hist)) (k + 1)))) ∧
    (hist.length < 2 →
      revGrowthRate hist = JsNum.num 0 ∧ expGrowthRate hist = JsNum.num 0 ∧
      ∀ p ∈ generateForecast hist,
        p.revenue = JsNum.num (hist.getLastD ⟨"", 0, 0⟩).revenue ∧
        p.expenses = JsNum.num (hist.getLastD ⟨"", 0, 0⟩).expenses) := by
  have hE : hist.isEmpty = false := by
    cases hist with
    | nil => exact absurd rfl hne
    | cons a l => rfl
  refine ⟨fun h => clampRate_ne_nan _ h, fun h => clampRate_ne_nan _ h, ?_, ?_, ?_, ?_⟩
  · intro hz
    rw [rawGrowth]
    by_cases hlen : 2 ≤ (lastThree hist).length
    · rw [if_pos hlen]
      obtain ⟨qs, hqs⟩ :=
        foldl_jsAdd_num _ (growthTerms_num (fun p => p.revenue) (lastThree hist) hz) 0
      rw [growthSum, hqs]
      have hcnt : ((((lastThree hist).length - 1 : Nat) : Rat)) ≠ 0 :=
        Nat.cast_ne_zero.mpr (by omega)
      simp [jsDiv, hcnt]
    · rw [if_neg hlen]
      simp
  · simp [generateForecast, hE]
  · intro k hk
    constructor <;>
      simp [generateForecast, hE, List.getElem?_map, List.getElem?_range, hk]
  · intro hlen
    have h1 : (lastThree hist).length < 2 := by
      have := List.length_drop (hist.length - 3) hist
      simp only [lastThree]
      omega
    have hraw : ∀ f, rawGrowth f hist = JsNum.num 0 := by
      intro f
      rw [rawGrowth, if_neg (by omega)]
    have hclamp : clampRate (JsNum.num 0) = JsNum.num 0 := by
      show JsNum.num (max (-(1/5)) (min (1/5) 0)) = JsNum.num 0
      rw [min_eq_right (by norm_num), max_eq_right (by norm_num)]
    have hg : revGrowthRate hist = JsNum.num 0 := by
      rw [revGrowthRate, hraw, hclamp]
    have hg2 : expGrowthRate hist = JsNum.num 0 := by
      rw [expGrowthRate, hraw, hclamp]
    refine ⟨hg, hg2, ?_⟩
    intro p hp
    simp only [generateForecast, hE, Bool.false_eq_true, if_false, List.mem_map,
      List.mem_range] at hp
    obtain ⟨k, _, rfl⟩ := hp
    rw [hg, hg2]
    have hone : jsPow (jsAdd (JsNum.num 1) (JsNum.num 0)) (k + 1) = JsNum.num 1 := by
      rw [show jsAdd (JsNum.num 1) (JsNum.num 0) = JsNum.num 1 from by simp [jsAdd]]
      simp [jsPow]
    constructor
    · show jsMul (JsNum.num (hist.getLastD ⟨"", 0, 0⟩).revenue)
        (jsPow (jsAdd (JsNum.num 1) (JsNum.num 0)) (k + 1)) = _
      rw [hone]
      simp [jsMul]
    · show jsMul (JsNum.num (hist.getLastD ⟨"", 0, 0⟩).expenses)
        (jsPow (jsAdd (JsNum.num 1) (JsNum.num 0)) (k + 1)) = _
      rw [hone]
      simp [jsMul]

/-- C5 counterexample: a trailing window ending in two zero-revenue
months (an ordinary shape: combineData emits zero-revenue months) makes
the second growth term (0 - 0) / 0 = NaN, the accumulated raw growth NaN,
and Math.max(-0.2, Math.min(0.2, NaN)) = NaN: the growth rate is not
clamped into [-20%, +20%], and the projected revenue is NaN rather than a
compounded finite value. -/
theorem generateForecast_nan_rate :
    revGrowthRate [⟨"Oct", 5, 7⟩, ⟨"Nov", 0, 7⟩, ⟨"Dec", 0, 7⟩] = JsNum.nan ∧
    (generateForecast [⟨"Oct", 5, 7⟩, ⟨"Nov", 0, 7⟩, ⟨"Dec", 0, 7⟩])[0]?.map
      (fun p => p.revenue) = some JsNum.nan := by
  have hrate : revGrowthRate [⟨"Oct", 5, 7⟩, ⟨"Nov", 0, 7⟩, ⟨"Dec", 0, 7⟩] =
      JsNum.nan := by
    norm_num [revGrowthRate, clampRate, rawGrowth, lastThree, growthSum,
      growthTerms, jsDiv, jsSub, jsAdd, jsMin, jsMax, List.foldl_cons,
      List.foldl_nil]
  refine ⟨hrate, ?_⟩
  norm_num [generateForecast, hrate, List.getElem?_map, List.getElem?_range,
    List.getLastD, jsAdd, jsPow, jsMul]

/-- Witness for C5 (amended): on the one-point series with revenue 10 and
expenses 4 the raw growth is finite, the clamped rate is the finite value
0, the forecast has 6 periods, and the first projected revenue is the
unchanged 10. -/
theorem generateForecast_spec_witness :
    revGrowthRate [⟨"Jan", 10, 4⟩] = JsNum.num 0 ∧
    (generateForecast [⟨"Jan", 10, 4⟩]).length = 6 ∧
    (generateForecast [⟨"Jan", 10, 4⟩])[0]?.map (fun p => p.revenue) =
      some (JsNum.num 10) := by
  have h := generateForecast_spec [⟨"Jan", 10, 4⟩] (by simp)
  have hflat := h.2.2.2.2.2 (by norm_num)
  refine ⟨hflat.1, h.2.2.2.1, ?_⟩
  have h0 := (h.2.2.2.2.1 0 (by norm_num)).1
  rw [h0, hflat.1]
  norm_num [jsAdd, jsPow, jsMul]

/-- Totality of the code-point string comparison. -/
theorem strLeB_go_total : ∀ xs ys : List Char,
    strLeB.go xs ys = true ∨ strLeB.go ys xs = true := by
  intro xs
  induction xs with
  | nil => intro ys; left; rfl
  | cons x xs ih =>
    intro ys
    cases ys with
    | nil => right; rfl
    | cons y ys =>
      by_cases h : x = y
      · subst h
        rcases ih ys with h1 | h1
        · left; simp [strLeB.go, h1]
        · right; simp [strLeB.go, h1]
      · rcases Ne.lt_or_lt h with hlt | hlt
        · left; simp [strLeB.go, h, hlt]
        · right; simp [strLeB.go, Ne.symm h, hlt]

/-- Transitivity of the code-point string comparison. -/
theorem strLeB_go_trans : ∀ xs ys zs : List Char,
    strLeB.go xs ys = true → strLeB.go ys zs = true → strLeB.go xs zs = true := by
  intro xs
  induction xs with
  | nil => intro ys zs h1 h2; rfl
  | cons x xs ih =>
    intro ys zs h1 h2
    cases ys with
    | nil => exact absurd h1 (by simp [strLeB.go])
    | cons y ys =>
      cases zs with
      | nil => exact absurd h2 (by simp [strLeB.go])
      | cons z zs =>
        simp only [strLeB.go] at h1 h2 ⊢
        by_cases hxy : x = y
        · subst hxy
          by_cases hyz : x = z
          · subst hyz
            simp only [if_pos rfl] at h1 h2 ⊢
            exact ih ys zs h1 h2
          · simp only [if_neg hyz] at h2 ⊢
            simp only [if_pos rfl] at h1
            exact h2
        · by_cases hyz : y = z
          · subst hyz
            simp only [if_neg hxy] at h1 ⊢
            exact h1
          · simp only [if_neg hxy] at h1
            simp only [if_neg hyz] at h2
            have hx : x < y := of_decide_eq_true h1
            have hy : y < z := of_decide_eq_true h2
            have hxz : x < z := lt_trans hx hy
            have hne : x ≠ z := ne_of_lt hxz
            simp [if_neg hne, hxz]

instance : IsTotal String strLe :=
  ⟨fun a b => strLeB_go_total a.data b.data⟩

instance : IsTrans String strLe :=
  ⟨fun a b c h1 h2 => strLeB_go_trans a.data b.data c.data h1 h2⟩

/-- Spreading a Set keeps exactly the members of the original list. -/
theorem mem_dedupFirst (m : String) : ∀ l, m ∈ dedupFirst l ↔ m ∈ l := by
  intro l
  induction l using dedupFirst.induct with
  | case1 => simp [dedupFirst]
  | case2 k rest ih =>
    rw [dedupFirst]
    by_cases h : m = k
    · subst h; simp
    · simp only [List.mem_cons, ih, List.mem_filter]
      simp [h]

/-- Spreading a Set yields a list without duplicates. -/
theorem nodup_dedupFirst : ∀ l, (dedupFirst l).Nodup := by
  intro l
  induction l using dedupFirst.induct with
  | case1 => simp [dedupFirst]
  | case2 k rest ih =>
    rw [dedupFirst, List.nodup_cons]
    refine ⟨fun hk => ?_, ih⟩
    rw [mem_dedupFirst] at hk
    have := (List.mem_filter.mp hk).2
    simp at this

/-- The month column of the profit/loss output is the sorted
deduplicated union of the input month labels. -/
theorem generateProfitLossData_months (revenueData : List RevenueItem)
    (expenseData : List ExpenseItem) :
    (generateProfitLossData revenueData expenseData).map (fun r => r.month) =
      List.insertionSort strLe
        (dedupFirst (revenueData.map (fun it => it.month) ++
          expenseData.map (fun it => it.month))) := by
  simp only [generateProfitLossData]
  rw [List.map_map]
  rw [show ((fun (r : ProfitLossRow) => r.month) ∘
      profitLossRowFor (recordOf (revenueData.map (fun it => (it.month, it.totalRevenue))))
        (recordOf (expenseData.map (fun it => (it.month, it.total))))) = id from rfl]
  exact List.map_id _

/-- C4 counterexample: on the revenue map Jan:100 and expense map Feb:40
the default JavaScript sort of the month labels places "Feb" before "Jan"
(code-point order), so generateProfitLossData returns the Feb row first
and the Jan row second, not the Jan row followed by the Feb row as the
claim states. -/
theorem generateProfitLossData_example_order :
    generateProfitLossData [⟨"Jan", 100⟩] [⟨"Feb", 40⟩] =
      [⟨"Feb", 0, 40, -40, 0⟩, ⟨"Jan", 100, 0, 100, 100⟩] ∧
    generateProfitLossData [⟨"Jan", 100⟩] [⟨"Feb", 40⟩] ≠
      [⟨"Jan", 100, 0, 100, 100⟩, ⟨"Feb", 0, 40, -40, 0⟩] := by
  have hJF : ¬ strLe "Jan" "Feb" := by decide
  have hne : ("Feb" : String) ≠ "Jan" := by decide
  have hne2 : ("Jan" : String) ≠ "Feb" := by decide
  have h : generateProfitLossData [⟨"Jan", 100⟩] [⟨"Feb", 40⟩] =
      [⟨"Feb", 0, 40, -40, 0⟩, ⟨"Jan", 100, 0, 100, 100⟩] := by
    norm_num [generateProfitLossData, recordOf, dedupFirst, profitLossRowFor,
      List.insertionSort, List.orderedInsert, List.filter_cons, List.filter_nil,
      hJF, hne, hne2]
  refine ⟨h, ?_⟩
  rw [h]
  intro hc
  have := List.head_eq_of_cons_eq hc
  simp at this

/-- C4 amended: generateProfitLossData outputs exactly one row per month
label present in either input map (label column has no duplicates), with
each row reading each side from its by-month record (0 substituted for a
missing month), profit = revenue - expenses, and margin = profit /
revenue * 100 (0 when revenue is 0); the rows appear in the
code-point-sorted order of their month labels (the default JavaScript
string sort), so for revenue Jan:100 and expense Feb:40 the output is the
Feb row followed by the Jan row. -/
theorem generateProfitLossData_spec :
    (∀ (revenueData : List RevenueItem) (expenseData : List ExpenseItem) r,
      r ∈ generateProfitLossData revenueData expenseData →
        r.revenue = ((recordOf (revenueData.map (fun it => (it.month, it.totalRevenue))))
          r.month).getD 0 ∧
        r.expenses = ((recordOf (expenseData.map (fun it => (it.month, it.total))))
          r.month).getD 0 ∧
        r.profit = r.revenue - r.expenses ∧
        (0 < r.revenue → r.profitMargin = r.profit / r.revenue * 100) ∧
        (r.revenue = 0 → r.profitMargin = 0)) ∧
    (∀ (revenueData : List RevenueItem) (expenseData : List ExpenseItem) m,
      m ∈ (generateProfitLossData revenueData expenseData).map (fun r => r.month) ↔
        m ∈ revenueData.map (fun it => it.month) ∨
          m ∈ expenseData.map (fun it => it.month)) ∧
    (∀ (revenueData : List RevenueItem) (expenseData : List ExpenseItem),
      ((generateProfitLossData revenueData expenseData).map
        (fun r => r.month)).Nodup) ∧
    (∀ (revenueData : List RevenueItem) (expenseData : List ExpenseItem),
      ((generateProfitLossData revenueData expenseData).map
        (fun r => r.month)).Sorted strLe) ∧
    generateProfitLossData [⟨"Jan", 100⟩] [⟨"Feb", 40⟩] =
      [⟨"Feb", 0, 40, -40, 0⟩, ⟨"Jan", 100, 0, 100, 100⟩] := by
  refine ⟨?_, ?_, ?_, ?_, ?_⟩
  · intro revenueData expenseData r hr
    simp only [generateProfitLossData, List.mem_map] at hr
    obtain ⟨m, _, rfl⟩ := hr
    refine ⟨rfl, rfl, rfl, fun h => if_pos h, fun h => ?_⟩
    have h0 : ((recordOf (revenueData.map (fun it => (it.month, it.totalRevenue))))
        m).getD 0 = 0 := h
    exact if_neg (by rw [h0]; exact lt_irrefl 0)
  · intro revenueData expenseData m
    rw [generateProfitLossData_months]
    rw [(List.perm_insertionSort strLe _).mem_iff]
    rw [mem_dedupFirst]
    exact List.mem_append
  · intro revenueData expenseData
    rw [generateProfitLossData_months]
    exact ((List.perm_insertionSort strLe _).nodup_iff).mpr (nodup_dedupFirst _)
  · intro revenueData expenseData
    rw [generateProfitLossData_months]
    exact List.sorted_insertionSort strLe _
  · have hJF : ¬ strLe "Jan" "Feb" := by decide
    have hne : ("Feb" : String) ≠ "Jan" := by decide
    have hne2 : ("Jan" : String) ≠ "Feb" := by decide
    norm_num [generateProfitLossData, recordOf, dedupFirst, profitLossRowFor,
      List.insertionSort, List.orderedInsert, List.filter_cons, List.filter_nil,
      hJF, hne, hne2]

/-- Witness for C4 (amended): in the example output, the first row is the
Feb row with revenue 0 (so margin 0) and profit -40. -/
theorem generateProfitLossData_spec_witness :
    (generateProfitLossData [⟨"Jan", 100⟩] [⟨"Feb", 40⟩]).map (fun r => r.month) =
      ["Feb", "Jan"] ∧
    ∀ r ∈ generateProfitLossData [⟨"Jan", 100⟩] [⟨"Feb", 40⟩],
      r.profit = r.revenue - r.expenses := by
  have h := generateProfitLossData_spec
  constructor
  · rw [h.2.2.2.2]; rfl
  · intro r hr
    exact (h.1 [⟨"Jan", 100⟩] [⟨"Feb", 40⟩] r hr).2.2.1

/-- C6 counterexample: fetchProfile does not normalize a provider error
to a default value; its catch block rethrows, so on a failed read the
returned promise rejects instead of resolving. -/
theorem fetchProfile_rejects :
    (fetchProfile (Except.error "db error")).isOk = false := rfl

/-- C6 amended: every data-access read function except fetchProfile
resolves to an empty collection or a zero/default value on any provider
error, so its callers cannot distinguish no data from a failed fetch;
fetchProfile instead propagates (rethrows) the error. -/
theorem dataAccess_error_normalization (e : String)
    (dateFrom dateTo : Option Date) (year : Nat) :
    fetchOrders dateFrom dateTo (Except.error e) = [] ∧
    fetchMarkets dateFrom dateTo (Except.error e) = [] ∧
    fetchCourses dateFrom dateTo (Except.error e) = [] ∧
    fetchCategories (Except.error e) = [] ∧
    fetchExpenses dateFrom dateTo (Except.error e) = [] ∧
    fetchExpensesByYear year (Except.error e) = [] ∧
    fetchTotalExpenses dateFrom dateTo (Except.error e) = 0 ∧
    fetchExpensesByCategory (Except.error e) = [] ∧
    fetchMonthlyExpenses year (Except.error e) = [] ∧
    fetchMonthlyExpensesLib year (Except.error e) = [] ∧
    fetchRevenueSummary dateFrom dateTo (Except.error e) (Except.error e)
      (Except.error e) = ⟨0, 0, 0, 0, 0, 0, 0⟩ ∧
    fetchRevenueBySource dateFrom dateTo (Except.error e) (Except.error e)
      (Except.error e) =
      [⟨"Orders", 0, 0⟩, ⟨"Markets", 0, 0⟩, ⟨"Courses", 0, 0⟩] ∧
    fetchProfile (Except.error e) = Except.error e := by
  refine ⟨rfl, rfl, rfl, rfl, rfl, rfl, rfl, rfl, rfl, rfl, ?_, ?_, rfl⟩
  · simp [fetchRevenueSummary, fetchOrders, fetchMarkets, fetchCourses,
      orderRevenueOf, marketRevenueOf, courseRevenueOf]
  · simp [fetchRevenueBySource, fetchRevenueSummary, fetchOrders, fetchMarkets,
      fetchCourses, orderRevenueOf, marketRevenueOf, courseRevenueOf,
      revenueBySourceOf]

/-- C8 counterexample: a paid order of 100 and a market with
final_incoming -100 give a summary with total revenue 0, yet the Orders
percentage is 10000 percent, not 0: the "|| 1" guard only changes the
denominator, it does not zero the numerators. -/
theorem fetchRevenueBySource_zero_total_nonzero_percentage :
    (fetchRevenueSummary none none
      (Except.ok [⟨⟨2024, ⟨0, by decide⟩, 5⟩, some "PAID", 100, none⟩])
      (Except.ok [⟨⟨2024, ⟨0, by decide⟩, 6⟩, some (-100)⟩])
      (Except.ok [])).totalRevenue = 0 ∧
    (fetchRevenueBySource none none
      (Except.ok [⟨⟨2024, ⟨0, by decide⟩, 5⟩, some "PAID", 100, none⟩])
      (Except.ok [⟨⟨2024, ⟨0, by decide⟩, 6⟩, some (-100)⟩])
      (Except.ok [])).map (fun s => s.percentage) = [10000, -10000, 0] := by
  have hp : isPaidStatus (some "PAID") = true := by decide
  constructor
  · norm_num [fetchRevenueSummary, fetchOrders, fetchMarkets, fetchCourses,
      inWindow, hp, orderRevenueOf, marketRevenueOf, courseRevenueOf,
      List.filter_cons, List.filter_nil]
  · norm_num [fetchRevenueBySource, fetchRevenueSummary, fetchOrders, fetchMarkets,
      fetchCourses, inWindow, hp, orderRevenueOf, marketRevenueOf, courseRevenueOf,
      revenueBySourceOf, List.filter_cons, List.filter_nil]

/-- C8 amended: every summary produced by fetchRevenueSummary has
totalRevenue equal to the sum of the three source revenues; for any such
summary the three percentages computed by the revenue-by-source
breakdown sum to exactly 100 when total revenue is positive, and are all
exactly 0 when total revenue is 0 provided the source revenues are
non-negative (with mixed-sign source revenues cancelling to a zero
total, nonzero percentages survive, as the counterexample shows). -/
theorem revenueBySource_percentages :
    (∀ (dateFrom dateTo : Option Date) oRes mRes cRes,
      (fetchRevenueSummary dateFrom dateTo oRes mRes cRes).totalRevenue =
        (fetchRevenueSummary dateFrom dateTo oRes mRes cRes).orderRevenue +
        (fetchRevenueSummary dateFrom dateTo oRes mRes cRes).marketRevenue +
        (fetchRevenueSummary dateFrom dateTo oRes mRes cRes).courseRevenue) ∧
    (∀ summary : RevenueSummary,
      summary.totalRevenue = summary.orderRevenue + summary.marketRevenue +
        summary.courseRevenue →
      0 < summary.totalRevenue →
      ((revenueBySourceOf summary).map (fun s => s.percentage)).sum = 100) ∧
    (∀ summary : RevenueSummary,
      summary.totalRevenue = 0 →
      0 ≤ summary.orderRevenue → 0 ≤ summary.marketRevenue →
      0 ≤ summary.courseRevenue →
      summary.totalRevenue = summary.orderRevenue + summary.marketRevenue +
        summary.courseRevenue →
      ∀ src ∈ revenueBySourceOf summary, src.percentage = 0) := by
  refine ⟨fun _ _ _ _ _ => rfl, ?_, ?_⟩
  · intro s h h0
    have ht : s.totalRevenue ≠ 0 := ne_of_gt h0
    simp only [revenueBySourceOf, List.map_cons, List.map_nil, List.sum_cons,
      List.sum_nil, add_zero, if_neg ht]
    rw [div_mul_eq_mul_div, div_mul_eq_mul_div, div_mul_eq_mul_div,
      div_add_div_same, div_add_div_same]
    rw [show s.orderRevenue * 100 + (s.marketRevenue * 100 + s.courseRevenue * 100) =
      (s.orderRevenue + s.marketRevenue + s.courseRevenue) * 100 from by ring]
    rw [← h, mul_comm, mul_div_assoc, div_self ht, mul_one]
  · intro s h0 ho hm hc hsum
    have hoz : s.orderRevenue = 0 := by
      rw [h0] at hsum; linarith
    have hmz : s.marketRevenue = 0 := by
      rw [h0] at hsum; linarith
    have hcz : s.courseRevenue = 0 := by
      rw [h0] at hsum; linarith
    intro src hsrc
    simp only [revenueBySourceOf, List.mem_cons, List.not_mem_nil, or_false] at hsrc
    rcases hsrc with rfl | rfl | rfl <;>
      simp [hoz, hmz, hcz]

/-- Witness for C8 (amended): with order revenue 60, market revenue 30
and course revenue 10 the percentages sum to 100; with the all-zero
summary every percentage is 0. -/
theorem revenueBySource_percentages_witness :
    ((revenueBySourceOf ⟨100, 60, 30, 10, 1, 1, 1⟩).map
      (fun s => s.percentage)).sum = 100 ∧
    ∀ src ∈ revenueBySourceOf ⟨0, 0, 0, 0, 0, 0, 0⟩, src.percentage = 0 := by
  constructor
  · exact revenueBySource_percentages.2.1 ⟨100, 60, 30, 10, 1, 1, 1⟩
      (by norm_num) (by norm_num)
  · exact revenueBySource_percentages.2.2 ⟨0, 0, 0, 0, 0, 0, 0⟩
      rfl le_rfl le_rfl le_rfl (by norm_num)

/-- C10: an order row returned by the orders query contributes to the
fetchOrders result (and hence to every revenue aggregate built from it)
exactly when it lies in the requested date window and its payment status,
uppercased, is one of PAID, COMPLETED, SETTLED, PROCESSED, APPROVED; a
missing status never matches. Consequently the aggregated order revenue
is not in general the sum over all rows of the requested window: a window
containing only an order with status "pending" has window sum 50 but
aggregate 0. -/
theorem fetchOrders_paid_filter :
    (∀ (dateFrom dateTo : Option Date) (data : List OrderRow) (o : OrderRow),
      o ∈ fetchOrders dateFrom dateTo (Except.ok data) ↔
        o ∈ data ∧ inWindow dateFrom dateTo o.created_at = true ∧
          isPaidStatus o.payment_status = true) ∧
    (∀ o : OrderRow, o.payment_status = none → isPaidStatus o.payment_status = false) ∧
    (orderRevenueOf (fetchOrders none none
        (Except.ok [⟨⟨2024, ⟨0, by decide⟩, 5⟩, some "pending", 50, none⟩])) = 0 ∧
      orderRevenueOf [⟨⟨2024, ⟨0, by decide⟩, 5⟩, some "pending", 50, none⟩] = 50) := by
  refine ⟨?_, ?_, ?_, ?_⟩
  · intro dateFrom dateTo data o
    simp only [fetchOrders, List.mem_filter]
    tauto
  · intro o h
    rw [h]
    rfl
  · have hnp : isPaidStatus (some "pending") = false := by decide
    norm_num [fetchOrders, inWindow, hnp, orderRevenueOf,
      List.filter_cons, List.filter_nil]
  · norm_num [orderRevenueOf]

/-- Witness for C10: a window containing one PAID order of 100 keeps that
order, and a missing payment status never matches the paid filter. -/
theorem fetchOrders_paid_filter_witness :
    (⟨⟨2024, ⟨0, by decide⟩, 5⟩, some "PAID", 100, none⟩ : OrderRow) ∈
      fetchOrders none none
        (Except.ok [⟨⟨2024, ⟨0, by decide⟩, 5⟩, some "PAID", 100, none⟩]) ∧
    isPaidStatus
      (⟨⟨2024, ⟨0, by decide⟩, 5⟩, none, 7, none⟩ : OrderRow).payment_status = false := by
  constructor
  · exact (fetchOrders_paid_filter.1 none none _ _).mpr
      ⟨List.mem_singleton.mpr rfl, rfl, by decide⟩
  · exact fetchOrders_paid_filter.2.1 _ rfl
